import Mathlib

/-!
Shallow embedding of the multi-strategy market-data resolution engine of
GSMT-Ver-3.0 (`src/app.py`), together with theorems settling the claims of
its specification.

Modelling conventions:
* Prices and raw numeric cells are rationals (`ℚ`); Python's binary floats
  are modelled by exact rational arithmetic.
* Timestamps are abstract instants measured in hours (`Int`); timezone
  localisation and conversion preserve the instant, so comparisons against a
  cutoff are unchanged by them and only the (unmodelled) string rendering
  differs.
* A Python value that may be `None`/NaN is an `Option`.
* A call into the upstream provider (`yfinance`) is an oracle
  `fetch : String → Rung → FetchResult`, one `Rung` per
  (period, interval) combination attempted by `try_primary_symbol`;
  `FetchResult.err` covers a raised exception or timeout.
* Each call to `np.random.normal(mu, sigma)` is modelled as
  `mu + sigma * z i` where `z : Nat → ℚ` is an explicit stream of
  standardised draws, one stream per call site, indexed by point position.
* A Python statement that raises an uncaught exception is modelled by the
  surrounding function returning `none` (`Option`-valued results).
-/

/-- Python `int(x)`: truncation of a rational toward zero. -/
def truncToward0 (q : ℚ) : Int :=
  if q < 0 then -⌊-q⌋ else ⌊q⌋

/-- Python `round(x)` on a rational: round half to even (banker's rounding). -/
def roundHalfEven (x : ℚ) : Int :=
  let f := ⌊x⌋
  let r := x - (f : ℚ)
  if r < 1/2 then f
  else if 1/2 < r then f + 1
  else if f % 2 = 0 then f else f + 1

/-- Python `round(x, 2)`: round to two decimal places, half to even. -/
def round2 (x : ℚ) : ℚ :=
  (roundHalfEven (x * 100) : ℚ) / 100

/-- One provider-native row of the time-indexed table returned by
`ticker.history`: Open/High/Low/Close/Volume cells, each possibly NaN. -/
structure RawRow where
  ts : Int
  «open» : Option ℚ
  high : Option ℚ
  low : Option ℚ
  close : Option ℚ
  volume : Option ℚ
  deriving DecidableEq, Repr

/-- One canonical OHLCV point as built by `process_market_data` and consumed
by the rest of the engine (a Python dict with fixed keys). Both timestamp
renderings keep the underlying instant. -/
structure DataPoint where
  timestamp : Int
  timestamp_raw : Int
  «open» : Option ℚ
  high : Option ℚ
  low : Option ℚ
  close : Option ℚ
  volume : Int
  deriving DecidableEq, Repr

/-- The per-row dict construction inside `process_market_data`:
NaN cells become `None`; volume is coerced to an `int`, `0` when absent or
non-positive. -/
def toDataPoint (r : RawRow) : DataPoint :=
  { timestamp := r.ts
    timestamp_raw := r.ts
    «open» := r.«open»
    high := r.high
    low := r.low
    close := r.close
    volume :=
      match r.volume with
      | some v => if 0 < v then truncToward0 v else 0
      | none => 0 }

/-- The `cutoff_time` local of `process_market_data`: `now - 5 days` when
daily, else `now - max_hours`. -/
def pmdCutoff (now maxHours : Int) (isDaily : Bool) : Int :=
  if isDaily then now - 5 * 24 else now - maxHours

/-- The `recent_data` local of `process_market_data` before the fallback:
rows within the recency window. -/
def pmdRecent (rows : List RawRow) (now maxHours : Int) (isDaily : Bool) :
    List RawRow :=
  rows.filter (fun r => pmdCutoff now maxHours isDaily ≤ r.ts)

/-- The `recent_data` local of `process_market_data` after the fallback: when
the window is empty, `data.tail(100)` — the last 100 raw rows in source
order. -/
def pmdWindow (rows : List RawRow) (now maxHours : Int) (isDaily : Bool) :
    List RawRow :=
  if (pmdRecent rows now maxHours isDaily).isEmpty then
    rows.drop (rows.length - 100)
  else pmdRecent rows now maxHours isDaily

/-- The `result` local of `process_market_data`: windowed rows turned into
points, keeping only those with a present close. -/
def pmdResult (rows : List RawRow) (now maxHours : Int) (isDaily : Bool) :
    List DataPoint :=
  ((pmdWindow rows now maxHours isDaily).map toDataPoint).filter
    (fun p => p.close.isSome)

/-- `process_market_data(data, symbol, max_hours, is_daily)`: timezone-convert
(instant-preserving, hence dropped), filter rows to the recency window,
fall back to the last 100 raw rows when the window is empty, build points and
keep only those with a present close; `none` when the raw table or the final
result is empty. -/
def process_market_data (rows : List RawRow) (now : Int) (maxHours : Int)
    (isDaily : Bool) : Option (List DataPoint) :=
  if rows.isEmpty then none
  else if (pmdResult rows now maxHours isDaily).isEmpty then none
  else some (pmdResult rows now maxHours isDaily)

/-- The four (period, interval) combinations `try_primary_symbol` attempts:
`A` = 2d/1m, `B` = 5d/5m, `C` = 1mo/1h, `D` = 5d/1d. -/
inductive Rung where
  | A | B | C | D
  deriving DecidableEq, Repr

/-- Outcome of one `ticker.history` call: a raised exception/timeout, or a raw
table. -/
inductive FetchResult where
  | err : FetchResult
  | ok : List RawRow → FetchResult
  deriving DecidableEq, Repr

/-- Rung D of the ladder (5-day period, daily interval): taken whenever the
raw table is non-empty, normalised with window `max_hours * 24` and the
`is_daily` flag; after it the ladder is exhausted. -/
def strategyD (fetch : String → Rung → FetchResult) (symbol : String)
    (now : Int) (maxHours : Int) : Option (List DataPoint) :=
  match fetch symbol .D with
  | .ok data =>
      if ¬data.isEmpty then process_market_data data now (maxHours * 24) true
      else none
  | .err => none

/-- Rung C of the ladder (1-month period, 1-hour interval): taken whenever the
raw table is non-empty, normalised with the doubled window `max_hours * 2`;
otherwise falls through to rung D. -/
def strategyC (fetch : String → Rung → FetchResult) (symbol : String)
    (now : Int) (maxHours : Int) : Option (List DataPoint) :=
  match fetch symbol .C with
  | .ok data =>
      if ¬data.isEmpty then process_market_data data now (maxHours * 2) false
      else strategyD fetch symbol now maxHours
  | .err => strategyD fetch symbol now maxHours

/-- Rung B of the ladder (5-day period, 5-minute interval): taken when the raw
table is non-empty with more than 5 rows; otherwise falls through to rung C. -/
def strategyB (fetch : String → Rung → FetchResult) (symbol : String)
    (now : Int) (maxHours : Int) : Option (List DataPoint) :=
  match fetch symbol .B with
  | .ok data =>
      if ¬data.isEmpty ∧ 5 < data.length then process_market_data data now maxHours false
      else strategyC fetch symbol now maxHours
  | .err => strategyC fetch symbol now maxHours

/-- `try_primary_symbol(symbol, max_hours)`: the Fetch Ladder over one symbol.
Rung A (2-day period, 1-minute interval) is taken when the raw table is
non-empty with more than 10 rows; a raised provider call falls through to the
next rung. Whenever a rung's raw-size gate passes, the rung's normalised
result is returned as-is — even when normalisation yields `none`. -/
def try_primary_symbol (fetch : String → Rung → FetchResult) (symbol : String)
    (now : Int) (maxHours : Int) : Option (List DataPoint) :=
  match fetch symbol .A with
  | .ok data =>
      if ¬data.isEmpty ∧ 10 < data.length then process_market_data data now maxHours false
      else strategyB fetch symbol now maxHours
  | .err => strategyB fetch symbol now maxHours

/-- The per-point body of `apply_correlation_adjustment`. The Python code
copies the point, and only when the `open` cell is present and truthy
(non-zero) recomputes close/high/low from the correlation-scaled move;
a present non-zero open together with an absent close makes the subtraction
`close - open` raise a `TypeError`, modelled as `none`. -/
def adjustPoint (correlation_factor : ℚ) (point : DataPoint) : Option DataPoint :=
  match point.«open» with
  | some o =>
      if o ≠ 0 then
        match point.close with
        | some c =>
            let price_change := (c - o) / o
            let adjusted_change := price_change * correlation_factor
            let newClose := o * (1 + adjusted_change)
            some { point with
                   close := some newClose
                   high := some (max o newClose * (1 + |adjusted_change| * 0.5))
                   low := some (min o newClose * (1 - |adjusted_change| * 0.5)) }
        | none => none
      else some point
  | none => some point

/-- The accumulation loop of `apply_correlation_adjustment` over the series;
`none` as soon as one point raises. -/
def adjustList (correlation_factor : ℚ) : List DataPoint → Option (List DataPoint)
  | [] => some []
  | p :: rest =>
      match adjustPoint correlation_factor p, adjustList correlation_factor rest with
      | some q, some qs => some (q :: qs)
      | _, _ => none

/-- `apply_correlation_adjustment(data, correlation_factor, target_symbol)`:
identity when `correlation_factor == 1.0`, otherwise the pointwise
adjustment loop. (`target_symbol` is unused by the Python body.) -/
def apply_correlation_adjustment (data : List DataPoint)
    (correlation_factor : ℚ) : Option (List DataPoint) :=
  if correlation_factor = 1 then some data
  else adjustList correlation_factor data

/-- One entry of the `SYMBOL_ALTERNATIVES` registry. -/
structure SymbolInfo where
  name : String
  alternatives : List String
  proxy_symbols : List String
  market_correlation : ℚ
  deriving DecidableEq, Repr

/-- The static `SYMBOL_ALTERNATIVES` dict of `app.py`. -/
def SYMBOL_ALTERNATIVES : List (String × SymbolInfo) :=
  [ ("^AXJO", ⟨"ASX 200 (Australia)", ["^AXJO", "XJO.AX", "IOZ.AX"], ["^AORD", "VAS.AX"], 1⟩)
  , ("^AXKO", ⟨"ASX 300 (Australia)", ["^AXKO", "XKO.AX", "VAS.AX"], ["^AXJO", "^AORD", "IOZ.AX"], 0.95⟩)
  , ("^AFLI", ⟨"ASX 50 (Australia)", ["^AFLI", "XFL.AX"], ["^AXJO", "IOZ.AX"], 0.85⟩)
  , ("^AXMD", ⟨"ASX 100 (Australia)", ["^AXMD", "XTO.AX"], ["^AXJO", "^AORD"], 0.90⟩)
  , ("^AXSO", ⟨"ASX Small Cap (Australia)", ["^AXSO", "VSO.AX"], ["^AXJO", "^AORD"], 0.70⟩)
  , ("^N225", ⟨"Nikkei 225 (Japan)", ["^N225", "NKY", "1321.T"], ["EWJ"], 1⟩)
  , ("^HSI", ⟨"Hang Seng (Hong Kong)", ["^HSI", "HSI", "2800.HK"], ["EWH", "FXI"], 1⟩)
  , ("000001.SS", ⟨"Shanghai Composite (China)", ["000001.SS", "SHCOMP", "510300.SS"], ["FXI", "MCHI"], 1⟩)
  , ("^NSEI", ⟨"Nifty 50 (India)", ["^NSEI", "NSEI", "^NSEBANK"], ["INDA", "EPI"], 1⟩)
  , ("^GSPC", ⟨"S&P 500 (USA)", ["^GSPC"], ["SPY"], 1⟩)
  , ("^DJI", ⟨"Dow Jones (USA)", ["^DJI"], ["DIA"], 1⟩)
  , ("^IXIC", ⟨"NASDAQ (USA)", ["^IXIC"], ["QQQ"], 1⟩)
  , ("^FTSE", ⟨"FTSE 100 (UK)", ["^FTSE"], ["EWU"], 1⟩)
  , ("^GDAXI", ⟨"DAX (Germany)", ["^GDAXI"], ["EWG"], 1⟩)
  , ("^FCHI", ⟨"CAC 40 (France)", ["^FCHI"], ["EWQ"], 1⟩)
  , ("^BSESN", ⟨"BSE Sensex (India)", ["^BSESN"], ["INDA"], 1⟩)
  , ("^KS11", ⟨"KOSPI (South Korea)", ["^KS11"], ["EWY"], 1⟩)
  , ("^TWII", ⟨"Taiwan Weighted (Taiwan)", ["^TWII"], ["EWT"], 1⟩)
  , ("^JKSE", ⟨"Jakarta Composite (Indonesia)", ["^JKSE"], ["EIDO"], 1⟩) ]

/-- `SYMBOL_ALTERNATIVES.get(symbol, default)`: unknown symbols get a profile
with only themselves, no proxies, correlation 1.0. -/
def lookupSymbolInfo (symbol : String) : SymbolInfo :=
  match SYMBOL_ALTERNATIVES.find? (fun e => e.1 = symbol) with
  | some e => e.2
  | none => ⟨symbol, [symbol], [], 1⟩

/-- The loop body of `create_correlated_data` for points after the first:
carries the index `i`, the previous base point and the previous synthetic
close. The realised base return divides by the previous base close — an
absent base close raises a `TypeError` and a zero one a `ZeroDivisionError`,
both modelled as `none`. `noise i` and `volNoise i` are the standardised
draws of `np.random.normal(0, 0.001)` and `np.random.normal(1000000, 200000)`
at step `i`. -/
def createCorrAux (correlation : ℚ) (noise volNoise : Nat → ℚ) :
    Nat → DataPoint → ℚ → List DataPoint → Option (List DataPoint)
  | _, _, _, [] => some []
  | i, prevBase, prevClose, basePoint :: rest =>
      match prevBase.close, basePoint.close with
      | some pc, some cc =>
          if pc = 0 then none
          else
            let base_change := (cc - pc) / pc
            let correlated_change := base_change * correlation
            let random_factor := 0.001 * noise i
            let total_change := correlated_change + random_factor
            let new_close := prevClose * (1 + total_change)
            let volatility := |total_change| + 0.005
            let high := new_close * (1 + volatility * 0.5)
            let low := new_close * (1 - volatility * 0.5)
            let open_price := prevClose
            let pt : DataPoint :=
              { timestamp := basePoint.timestamp
                timestamp_raw := basePoint.timestamp_raw
                «open» := some (round2 open_price)
                high := some (round2 high)
                low := some (round2 low)
                close := some (round2 new_close)
                volume := truncToward0 (1000000 + 200000 * volNoise i) }
            match createCorrAux correlation noise volNoise (i + 1) basePoint
                (round2 new_close) rest with
            | some l => some (pt :: l)
            | none => none
      | _, _ => none

/-- `create_correlated_data(base_data, correlation, target_symbol)`: a
correlated walk seeded at price 1000, first point fixed, later points driven
by the base series' realised returns scaled by `correlation` plus small
Gaussian noise. -/
def create_correlated_data (base_data : List DataPoint) (correlation : ℚ)
    (noise volNoise : Nat → ℚ) : Option (List DataPoint) :=
  match base_data with
  | [] => some []
  | b0 :: rest =>
      let base_price : ℚ := 1000
      let p0 : DataPoint :=
        { timestamp := b0.timestamp
          timestamp_raw := b0.timestamp_raw
          «open» := some base_price
          high := some (base_price * 1.002)
          low := some (base_price * 0.998)
          close := some base_price
          volume := 1000000 }
      match createCorrAux correlation noise volNoise 1 b0 base_price rest with
      | some l => some (p0 :: l)
      | none => none

/-- The 24-iteration loop of `generate_standard_demo_data`, carrying the
remaining iteration count, the index `i` and the previous rounded close.
`stepNoise i` and `dVolNoise i` are the standardised draws of
`np.random.normal(0, 0.01)` and `np.random.normal(500000, 100000)` at
step `i`. -/
def genStdAux (now : Int) (stepNoise dVolNoise : Nat → ℚ) :
    Nat → Nat → ℚ → List DataPoint
  | 0, _, _ => []
  | n + 1, i, prevClose =>
      let change := 0.01 * stepNoise i
      let price : ℚ := if i = 0 then 1000 else prevClose * (1 + change)
      let volatility : ℚ := 0.005
      let high := price * (1 + volatility)
      let low := price * (1 - volatility)
      let pt : DataPoint :=
        { timestamp := now - ((23 : Int) - (i : Int))
          timestamp_raw := now - ((23 : Int) - (i : Int))
          «open» := some (round2 (price * 0.999))
          high := some (round2 high)
          low := some (round2 low)
          close := some (round2 price)
          volume := truncToward0 (500000 + 100000 * dVolNoise i) }
      pt :: genStdAux now stepNoise dVolNoise n (i + 1) (round2 price)

/-- `generate_standard_demo_data(symbol)`: the standalone 24-point hourly
random walk from the fixed seed price 1000, timestamped backward from now. -/
def generate_standard_demo_data (now : Int) (stepNoise dVolNoise : Nat → ℚ) :
    List DataPoint :=
  genStdAux now stepNoise dVolNoise 24 0 1000

/-- The reference-series search of `generate_correlated_demo_data`: `^GSPC`
first, then `^DJI`, `^IXIC`, `^FTSE`, each through the Fetch Ladder with a
24-hour window; each call's exceptions are swallowed (and the ladder itself
never raises). -/
def firstBaseData (fetch : String → Rung → FetchResult) (now : Int) :
    Option (List DataPoint) :=
  match try_primary_symbol fetch "^GSPC" now 24 with
  | some d => some d
  | none =>
      match try_primary_symbol fetch "^DJI" now 24 with
      | some d => some d
      | none =>
          match try_primary_symbol fetch "^IXIC" now 24 with
          | some d => some d
          | none => try_primary_symbol fetch "^FTSE" now 24

/-- `generate_correlated_demo_data(symbol, symbol_info)`: correlated walk from
the first reachable benchmark, else the standalone random walk. The
`create_correlated_data` call is not wrapped in any handler, so its
exceptions propagate (`none`). -/
def generate_correlated_demo_data (fetch : String → Rung → FetchResult)
    (now : Int) (info : SymbolInfo) (noise volNoise stepNoise dVolNoise : Nat → ℚ) :
    Option (List DataPoint) :=
  match firstBaseData fetch now with
  | some base_data =>
      if 0 < base_data.length then
        create_correlated_data base_data info.market_correlation noise volNoise
      else some (generate_standard_demo_data now stepNoise dVolNoise)
  | none => some (generate_standard_demo_data now stepNoise dVolNoise)

/-- The `status` dict accumulated by `get_multi_strategy_data`. -/
structure Status where
  symbol : String
  name : String
  attempts : List String
  data_source : Option String
  warnings : List String
  proxy_used : Bool
  deriving DecidableEq, Repr

/-- The Strategy-2 loop of `get_multi_strategy_data`: the Fetch Ladder over
each alternative symbol in order; `.inl` is the loop's `return` with the
series and updated status, `.inr` the status after all alternatives failed. -/
def tryAltList (fetch : String → Rung → FetchResult) (now : Int)
    (maxHours : Int) (symbol : String) :
    List String → Status → (List DataPoint × Status) ⊕ Status
  | [], st => .inr st
  | alt :: rest, st =>
      match try_primary_symbol fetch alt now maxHours with
      | some data =>
          .inl (data,
            { st with
              data_source := some ("alternative_symbol: " ++ alt)
              attempts := st.attempts ++ ["alternative_success: " ++ alt]
              warnings := st.warnings ++
                ["Using alternative symbol " ++ alt ++ " for " ++ symbol] })
      | none =>
          tryAltList fetch now maxHours symbol rest
            { st with attempts := st.attempts ++ ["alternative_failed: " ++ alt] }

/-- The Strategy-3 loop of `get_multi_strategy_data`: the Fetch Ladder over
each proxy symbol in order, the first success passed through
`apply_correlation_adjustment`; the outer `Option` propagates an exception
raised by the adjuster. -/
def tryProxyList (fetch : String → Rung → FetchResult) (now : Int)
    (maxHours : Int) (symbol : String) (correlation : ℚ) :
    List String → Status → Option ((List DataPoint × Status) ⊕ Status)
  | [], st => some (.inr st)
  | proxy :: rest, st =>
      match try_primary_symbol fetch proxy now maxHours with
      | some data =>
          match apply_correlation_adjustment data correlation with
          | some adjusted =>
              some (.inl (adjusted,
                { st with
                  data_source := some ("proxy_symbol: " ++ proxy)
                  attempts := st.attempts ++ ["proxy_success: " ++ proxy]
                  warnings := st.warnings ++
                    ["Using proxy " ++ proxy ++ " for " ++ symbol ++
                     " (correlation: " ++ toString correlation ++ ")"]
                  proxy_used := true }))
          | none => none
      | none =>
          tryProxyList fetch now maxHours symbol correlation rest
            { st with attempts := st.attempts ++ ["proxy_failed: " ++ proxy] }

/-- `get_multi_strategy_data(symbol, max_hours)`: the Resolution
Orchestrator. Strategy 1 runs the Fetch Ladder on the requested symbol,
Strategy 2 on its alternatives (skipping the first, equal to the primary),
Strategy 3 on its proxies with correlation adjustment, Strategy 4 generates
correlated demo data. The outer `Option` propagates any uncaught exception
(`none`); the Python caller would see a raise there. -/
def get_multi_strategy_data (fetch : String → Rung → FetchResult) (now : Int)
    (noise volNoise stepNoise dVolNoise : Nat → ℚ) (symbol : String)
    (maxHours : Int) : Option (List DataPoint × Status) :=
  let info := lookupSymbolInfo symbol
  let st0 : Status :=
    { symbol := symbol, name := info.name, attempts := [],
      data_source := none, warnings := [], proxy_used := false }
  match try_primary_symbol fetch symbol now maxHours with
  | some data =>
      some (data, { st0 with data_source := some "primary_symbol",
                             attempts := st0.attempts ++ ["primary_success"] })
  | none =>
      let st1 := { st0 with attempts := st0.attempts ++ ["primary_failed"] }
      match tryAltList fetch now maxHours symbol (info.alternatives.drop 1) st1 with
      | .inl r => some r
      | .inr st2 =>
          match tryProxyList fetch now maxHours symbol info.market_correlation
              info.proxy_symbols st2 with
          | none => none
          | some (.inl r) => some r
          | some (.inr st3) =>
              match generate_correlated_demo_data fetch now info
                  noise volNoise stepNoise dVolNoise with
              | none => none
              | some demo_data =>
                  some (demo_data,
                    { st3 with
                      data_source := some "correlated_demo"
                      attempts := st3.attempts ++ ["demo_fallback"]
                      warnings := st3.warnings ++
                        ["No real data available for " ++ symbol ++
                         ", using correlated demo data"] })

/-! ### Helper lemmas and concrete inputs used by the claim theorems -/

/-- The all-zero standardised noise stream. -/
def zStream : Nat → ℚ := fun _ => 0

/-- A noise stream whose every draw is six standard deviations below the
mean. -/
def minusSixStream : Nat → ℚ := fun _ => -6

/-- An upstream oracle for which every provider call raises. -/
def errFetch : String → Rung → FetchResult := fun _ _ => .err

/-- A raw row with all cells present, a given timestamp and close. -/
def plainRow (t : Int) (c : ℚ) : RawRow :=
  ⟨t, some 1, some 1, some 1, some c, some 1⟩

/-- A raw row whose close cell is NaN. -/
def nanCloseRow : RawRow := ⟨0, some 1, some 1, some 1, none, some 1⟩

/-- Eleven fresh raw rows whose first close is `0.0`: enough to pass rung A's
size gate, and poisonous to `create_correlated_data`'s realised-return
division. -/
def zeroCloseRows : List RawRow :=
  [plainRow 0 0, plainRow 0 100, plainRow 0 100, plainRow 0 100,
   plainRow 0 100, plainRow 0 100, plainRow 0 100, plainRow 0 100,
   plainRow 0 100, plainRow 0 100, plainRow 0 100]

/-- An oracle for which every symbol is unfetchable except that the `^GSPC`
reference succeeds at rung A with `zeroCloseRows`. -/
def zeroCloseFetch : String → Rung → FetchResult := fun s r =>
  if s = "^GSPC" ∧ r = .A then .ok zeroCloseRows else .err

/-- An oracle whose rung A passes the raw-size gate with eleven rows that all
normalise away (every close NaN), while rung B would succeed with six good
rows; rungs C and D raise. -/
def nanThenGoodFetch : String → Rung → FetchResult := fun s r =>
  if s = "X" ∧ r = .A then
    .ok [nanCloseRow, nanCloseRow, nanCloseRow, nanCloseRow, nanCloseRow,
         nanCloseRow, nanCloseRow, nanCloseRow, nanCloseRow, nanCloseRow,
         nanCloseRow]
  else if s = "X" ∧ r = .B then
    .ok [plainRow 0 100, plainRow 0 100, plainRow 0 100, plainRow 0 100,
         plainRow 0 100, plainRow 0 100]
  else .err

/-- An oracle whose rung A returns eleven raw rows of which only one
survives normalisation; every other call raises. -/
def sparseCloseFetch : String → Rung → FetchResult := fun s r =>
  if s = "X" ∧ r = .A then
    .ok [plainRow 0 100, nanCloseRow, nanCloseRow, nanCloseRow, nanCloseRow,
         nanCloseRow, nanCloseRow, nanCloseRow, nanCloseRow, nanCloseRow,
         nanCloseRow]
  else .err

/-- Eleven raw rows that all survive normalisation. -/
def elevenGoodRows : List RawRow := List.replicate 11 (plainRow 0 100)

/-- An oracle whose rung A succeeds with `elevenGoodRows`; every other call
raises. -/
def goodRungAFetch : String → Rung → FetchResult := fun s r =>
  if s = "X" ∧ r = .A then .ok elevenGoodRows else .err

lemma not_isEmpty_of_ne_nil {α : Type} {l : List α} (h : l ≠ []) :
    ¬l.isEmpty := by
  cases l with
  | nil => exact absurd rfl h
  | cons a l => simp

lemma process_market_data_closes {rows : List RawRow} {now maxHours : Int}
    {isDaily : Bool} {l : List DataPoint}
    (h : process_market_data rows now maxHours isDaily = some l) :
    ∀ p ∈ l, p.close.isSome := by
  unfold process_market_data at h
  rcases ite_eq_iff.mp h with ⟨_, h1⟩ | ⟨_, h2⟩
  · exact Option.noConfusion h1
  · rcases ite_eq_iff.mp h2 with ⟨_, h3⟩ | ⟨_, h4⟩
    · exact Option.noConfusion h3
    · intro p hp
      rw [← Option.some.inj h4] at hp
      exact (List.mem_filter.mp hp).2

lemma strategyD_closes {fetch : String → Rung → FetchResult} {symbol : String}
    {now maxHours : Int} {l : List DataPoint}
    (h : strategyD fetch symbol now maxHours = some l) :
    ∀ p ∈ l, p.close.isSome := by
  unfold strategyD at h
  split at h
  · split at h
    · exact process_market_data_closes h
    · exact absurd h (by simp)
  · exact absurd h (by simp)

lemma strategyC_closes {fetch : String → Rung → FetchResult} {symbol : String}
    {now maxHours : Int} {l : List DataPoint}
    (h : strategyC fetch symbol now maxHours = some l) :
    ∀ p ∈ l, p.close.isSome := by
  unfold strategyC at h
  split at h
  · split at h
    · exact process_market_data_closes h
    · exact strategyD_closes h
  · exact strategyD_closes h

lemma strategyB_closes {fetch : String → Rung → FetchResult} {symbol : String}
    {now maxHours : Int} {l : List DataPoint}
    (h : strategyB fetch symbol now maxHours = some l) :
    ∀ p ∈ l, p.close.isSome := by
  unfold strategyB at h
  split at h
  · split at h
    · exact process_market_data_closes h
    · exact strategyC_closes h
  · exact strategyC_closes h

lemma try_primary_symbol_closes {fetch : String → Rung → FetchResult}
    {symbol : String} {now maxHours : Int} {l : List DataPoint}
    (h : try_primary_symbol fetch symbol now maxHours = some l) :
    ∀ p ∈ l, p.close.isSome := by
  unfold try_primary_symbol at h
  split at h
  · split at h
    · exact process_market_data_closes h
    · exact strategyB_closes h
  · exact strategyB_closes h

lemma adjustPoint_closes {correlation_factor : ℚ} {p q : DataPoint}
    (h : adjustPoint correlation_factor p = some q)
    (hp : p.close.isSome) : q.close.isSome := by
  rcases ho : p.«open» with _ | o
  · simp only [adjustPoint, ho, Option.some.injEq] at h
    rw [← h]; exact hp
  · by_cases hoz : o = 0
    · simp only [adjustPoint, ho, hoz, ne_eq, not_true_eq_false, if_false,
        Option.some.injEq] at h
      rw [← h]; exact hp
    · rcases hc : p.close with _ | c
      · simp only [adjustPoint, ho, hc, ne_eq, hoz, not_false_eq_true,
          if_true] at h
        exact Option.noConfusion h
      · simp only [adjustPoint, ho, hc, ne_eq, hoz, not_false_eq_true,
          if_true, Option.some.injEq] at h
        rw [← h]; rfl

lemma adjustList_closes {correlation_factor : ℚ} :
    ∀ {data out : List DataPoint},
      adjustList correlation_factor data = some out →
      (∀ p ∈ data, p.close.isSome) → ∀ q ∈ out, q.close.isSome := by
  intro data
  induction data with
  | nil =>
      intro out h _
      rw [← Option.some.inj h]
      intro q hq
      exact absurd hq (List.not_mem_nil q)
  | cons p rest ih =>
      intro out h hin q hq
      unfold adjustList at h
      rcases h1 : adjustPoint correlation_factor p with _ | q0 <;> rw [h1] at h
      · exact Option.noConfusion h
      · rcases h2 : adjustList correlation_factor rest with _ | qs <;> rw [h2] at h
        · exact Option.noConfusion h
        · rw [← Option.some.inj h] at hq
          rcases List.mem_cons.mp hq with rfl | hq'
          · exact adjustPoint_closes h1 (hin p (List.mem_cons_self p rest))
          · exact ih h2 (fun x hx => hin x (List.mem_cons_of_mem p hx)) q hq'

lemma apply_correlation_adjustment_closes {data out : List DataPoint}
    {correlation_factor : ℚ}
    (h : apply_correlation_adjustment data correlation_factor = some out)
    (hin : ∀ p ∈ data, p.close.isSome) : ∀ q ∈ out, q.close.isSome := by
  unfold apply_correlation_adjustment at h
  split at h
  · rw [← Option.some.inj h]; exact hin
  · exact adjustList_closes h hin

lemma createCorrAux_closes {correlation : ℚ} {noise volNoise : Nat → ℚ} :
    ∀ {base : List DataPoint} {i : Nat} {prevBase : DataPoint} {prevClose : ℚ}
      {out : List DataPoint},
      createCorrAux correlation noise volNoise i prevBase prevClose base = some out →
      ∀ p ∈ out, p.close.isSome := by
  intro base
  induction base with
  | nil =>
      intro i prevBase prevClose out h p hp
      rw [← Option.some.inj h] at hp
      exact absurd hp (List.not_mem_nil p)
  | cons b rest ih =>
      intro i prevBase prevClose out h p hp
      rcases h1 : prevBase.close with _ | pc
      · simp only [createCorrAux, h1] at h
        exact Option.noConfusion h
      · rcases h2 : b.close with _ | cc
        · simp only [createCorrAux, h1, h2] at h
          exact Option.noConfusion h
        · by_cases h0 : pc = 0
          · simp only [createCorrAux, h1, h2, h0, if_true] at h
            exact Option.noConfusion h
          · simp only [createCorrAux, h1, h2, h0, if_false] at h
            split at h
            · rename_i l heq
              rw [← Option.some.inj h] at hp
              rcases List.mem_cons.mp hp with rfl | hp'
              · rfl
              · exact ih heq p hp'
            · exact Option.noConfusion h

lemma create_correlated_data_closes {base : List DataPoint} {correlation : ℚ}
    {noise volNoise : Nat → ℚ} {out : List DataPoint}
    (h : create_correlated_data base correlation noise volNoise = some out) :
    ∀ p ∈ out, p.close.isSome := by
  unfold create_correlated_data at h
  rcases base with _ | ⟨b0, rest⟩
  · rw [← Option.some.inj h]
    intro p hp
    exact absurd hp (List.not_mem_nil p)
  · dsimp only at h
    rcases h1 : createCorrAux correlation noise volNoise 1 b0 1000 rest
      with _ | l <;> rw [h1] at h
    · exact Option.noConfusion h
    · intro p hp
      rw [← Option.some.inj h] at hp
      rcases List.mem_cons.mp hp with rfl | hp'
      · rfl
      · exact createCorrAux_closes h1 p hp'

lemma genStdAux_closes {now : Int} {stepNoise dVolNoise : Nat → ℚ} :
    ∀ {n i : Nat} {prevClose : ℚ},
      ∀ p ∈ genStdAux now stepNoise dVolNoise n i prevClose, p.close.isSome := by
  intro n
  induction n with
  | zero =>
      intro i prevClose p hp
      exact absurd hp (List.not_mem_nil p)
  | succ m ih =>
      intro i prevClose p hp
      unfold genStdAux at hp
      rcases List.mem_cons.mp hp with rfl | hp'
      · rfl
      · exact ih p hp'

lemma generate_standard_demo_data_closes {now : Int}
    {stepNoise dVolNoise : Nat → ℚ} :
    ∀ p ∈ generate_standard_demo_data now stepNoise dVolNoise, p.close.isSome :=
  genStdAux_closes

lemma generate_correlated_demo_data_closes
    {fetch : String → Rung → FetchResult} {now : Int} {info : SymbolInfo}
    {noise volNoise stepNoise dVolNoise : Nat → ℚ} {out : List DataPoint}
    (h : generate_correlated_demo_data fetch now info noise volNoise stepNoise
      dVolNoise = some out) :
    ∀ p ∈ out, p.close.isSome := by
  rcases h1 : firstBaseData fetch now with _ | base
  · simp only [generate_correlated_demo_data, h1, Option.some.injEq] at h
    rw [← h]; exact generate_standard_demo_data_closes
  · simp only [generate_correlated_demo_data, h1] at h
    by_cases hl : 0 < base.length
    · rw [if_pos hl] at h
      exact create_correlated_data_closes h
    · rw [if_neg hl] at h
      rw [← Option.some.inj h]; exact generate_standard_demo_data_closes

lemma tryAltList_inl_closes {fetch : String → Rung → FetchResult} {now : Int}
    {maxHours : Int} {symbol : String} :
    ∀ {alts : List String} {st : Status} {data : List DataPoint} {st2 : Status},
      tryAltList fetch now maxHours symbol alts st = .inl (data, st2) →
      ∀ p ∈ data, p.close.isSome := by
  intro alts
  induction alts with
  | nil =>
      intro st data st2 h
      exact Sum.noConfusion h
  | cons alt rest ih =>
      intro st data st2 h
      rcases h1 : try_primary_symbol fetch alt now maxHours with _ | d
      · simp only [tryAltList, h1] at h
        exact ih h
      · simp only [tryAltList, h1, Sum.inl.injEq, Prod.mk.injEq] at h
        rw [← h.1]
        exact try_primary_symbol_closes h1

lemma tryProxyList_inl_closes {fetch : String → Rung → FetchResult} {now : Int}
    {maxHours : Int} {symbol : String} {correlation : ℚ} :
    ∀ {proxies : List String} {st : Status} {data : List DataPoint} {st2 : Status},
      tryProxyList fetch now maxHours symbol correlation proxies st =
        some (.inl (data, st2)) →
      ∀ p ∈ data, p.close.isSome := by
  intro proxies
  induction proxies with
  | nil =>
      intro st data st2 h
      simp only [tryProxyList, Option.some.injEq] at h
      exact Sum.noConfusion h
  | cons proxy rest ih =>
      intro st data st2 h
      rcases h1 : try_primary_symbol fetch proxy now maxHours with _ | d
      · simp only [tryProxyList, h1] at h
        exact ih h
      · rcases h2 : apply_correlation_adjustment d correlation with _ | adj
        · simp only [tryProxyList, h1, h2] at h
          exact Option.noConfusion h
        · simp only [tryProxyList, h1, h2, Option.some.injEq, Sum.inl.injEq,
            Prod.mk.injEq] at h
          rw [← h.1]
          exact apply_correlation_adjustment_closes h2
            (try_primary_symbol_closes h1)

lemma tryAltList_ne_inl {fetch : String → Rung → FetchResult} {now : Int}
    {maxHours : Int} {symbol : String} :
    ∀ {alts : List String},
      (∀ a ∈ alts, try_primary_symbol fetch a now maxHours = none) →
      ∀ (st : Status) (r : List DataPoint × Status),
        tryAltList fetch now maxHours symbol alts st ≠ .inl r := by
  intro alts
  induction alts with
  | nil => exact fun _ st r h => Sum.noConfusion h
  | cons alt rest ih =>
      intro hfail st r
      have h1 : try_primary_symbol fetch alt now maxHours = none :=
        hfail alt (List.mem_cons_self alt rest)
      simp only [tryAltList, h1]
      exact ih (fun a ha => hfail a (List.mem_cons_of_mem alt ha)) _ r

lemma tryProxyList_ne_none {fetch : String → Rung → FetchResult} {now : Int}
    {maxHours : Int} {symbol : String} {correlation : ℚ} :
    ∀ {proxies : List String},
      (∀ a ∈ proxies, try_primary_symbol fetch a now maxHours = none) →
      ∀ st : Status,
        tryProxyList fetch now maxHours symbol correlation proxies st ≠ none := by
  intro proxies
  induction proxies with
  | nil => exact fun _ st h => Option.noConfusion h
  | cons proxy rest ih =>
      intro hfail st
      have h1 : try_primary_symbol fetch proxy now maxHours = none :=
        hfail proxy (List.mem_cons_self proxy rest)
      simp only [tryProxyList, h1]
      exact ih (fun a ha => hfail a (List.mem_cons_of_mem proxy ha)) _

lemma tryProxyList_ne_inl {fetch : String → Rung → FetchResult} {now : Int}
    {maxHours : Int} {symbol : String} {correlation : ℚ} :
    ∀ {proxies : List String},
      (∀ a ∈ proxies, try_primary_symbol fetch a now maxHours = none) →
      ∀ (st : Status) (r : List DataPoint × Status),
        tryProxyList fetch now maxHours symbol correlation proxies st ≠
          some (.inl r) := by
  intro proxies
  induction proxies with
  | nil =>
      intro _ st r h
      rw [show tryProxyList fetch now maxHours symbol correlation [] st =
        some (.inr st) from rfl] at h
      exact Sum.noConfusion (Option.some.inj h)
  | cons proxy rest ih =>
      intro hfail st r
      have h1 : try_primary_symbol fetch proxy now maxHours = none :=
        hfail proxy (List.mem_cons_self proxy rest)
      simp only [tryProxyList, h1]
      exact ih (fun a ha => hfail a (List.mem_cons_of_mem proxy ha)) _ r

lemma adjustList_isSome {correlation_factor : ℚ} :
    ∀ {data : List DataPoint}, (∀ p ∈ data, p.close.isSome) →
      (adjustList correlation_factor data).isSome := by
  intro data
  induction data with
  | nil => exact fun _ => rfl
  | cons p rest ih =>
      intro hin
      have hc : p.close.isSome := hin p (List.mem_cons_self p rest)
      have hrest := ih (fun x hx => hin x (List.mem_cons_of_mem p hx))
      rcases hq : adjustPoint correlation_factor p with _ | q
      · exfalso
        rcases ho : p.«open» with _ | o
        · simp only [adjustPoint, ho] at hq
          exact Option.noConfusion hq
        · by_cases hoz : o = 0
          · simp only [adjustPoint, ho, hoz, ne_eq, not_true_eq_false,
              if_false] at hq
            exact Option.noConfusion hq
          · rcases hcs : p.close with _ | c
            · rw [hcs] at hc; exact Bool.noConfusion hc
            · simp only [adjustPoint, ho, hcs, ne_eq, hoz, not_false_eq_true,
                if_true] at hq
              exact Option.noConfusion hq
      · rcases hr : adjustList correlation_factor rest with _ | qs
        · rw [hr] at hrest; exact Bool.noConfusion hrest
        · simp only [adjustList, hq, hr, Option.isSome_some]

lemma genStdAux_volume {now : Int} {stepNoise dVolNoise : Nat → ℚ} :
    ∀ {n i : Nat} {prevClose : ℚ},
      ∀ p ∈ genStdAux now stepNoise dVolNoise n i prevClose,
        ∃ j, p.volume = truncToward0 (500000 + 100000 * dVolNoise j) := by
  intro n
  induction n with
  | zero =>
      intro i prevClose p hp
      exact absurd hp (List.not_mem_nil p)
  | succ m ih =>
      intro i prevClose p hp
      unfold genStdAux at hp
      rcases List.mem_cons.mp hp with rfl | hp'
      · exact ⟨i, rfl⟩
      · exact ih p hp'

lemma createCorrAux_volume {correlation : ℚ} {noise volNoise : Nat → ℚ} :
    ∀ {base : List DataPoint} {i : Nat} {prevBase : DataPoint} {prevClose : ℚ}
      {out : List DataPoint},
      createCorrAux correlation noise volNoise i prevBase prevClose base = some out →
      ∀ p ∈ out, ∃ j, i ≤ j ∧
        p.volume = truncToward0 (1000000 + 200000 * volNoise j) := by
  intro base
  induction base with
  | nil =>
      intro i prevBase prevClose out h p hp
      rw [← Option.some.inj h] at hp
      exact absurd hp (List.not_mem_nil p)
  | cons b rest ih =>
      intro i prevBase prevClose out h p hp
      rcases h1 : prevBase.close with _ | pc
      · simp only [createCorrAux, h1] at h
        exact Option.noConfusion h
      · rcases h2 : b.close with _ | cc
        · simp only [createCorrAux, h1, h2] at h
          exact Option.noConfusion h
        · by_cases h0 : pc = 0
          · simp only [createCorrAux, h1, h2, h0, if_true] at h
            exact Option.noConfusion h
          · simp only [createCorrAux, h1, h2, h0, if_false] at h
            split at h
            · rename_i l heq
              rw [← Option.some.inj h] at hp
              rcases List.mem_cons.mp hp with rfl | hp'
              · exact ⟨i, Nat.le_refl i, rfl⟩
              · obtain ⟨j, hij, hv⟩ := ih heq p hp'
                exact ⟨j, Nat.le_of_succ_le hij, hv⟩
            · exact Option.noConfusion h

lemma create_correlated_data_volume {base : List DataPoint} {correlation : ℚ}
    {noise volNoise : Nat → ℚ} {out : List DataPoint}
    (h : create_correlated_data base correlation noise volNoise = some out) :
    ∀ p ∈ out, p.volume = 1000000 ∨
      ∃ j, 1 ≤ j ∧ p.volume = truncToward0 (1000000 + 200000 * volNoise j) := by
  unfold create_correlated_data at h
  rcases base with _ | ⟨b0, rest⟩
  · rw [← Option.some.inj h]
    intro p hp
    exact absurd hp (List.not_mem_nil p)
  · dsimp only at h
    rcases h1 : createCorrAux correlation noise volNoise 1 b0 1000 rest
      with _ | l <;> rw [h1] at h
    · exact Option.noConfusion h
    · intro p hp
      rw [← Option.some.inj h] at hp
      rcases List.mem_cons.mp hp with rfl | hp'
      · exact Or.inl rfl
      · exact Or.inr (createCorrAux_volume h1 p hp')


/-! ### Claim theorems -/

/-- Claim C4: for every series, `apply_correlation_adjustment(series, 1.0)`
returns the input series exactly unchanged (identity law of the Correlation
Adjuster at correlation 1.0). -/
theorem c4_correlation_identity (data : List DataPoint) :
    apply_correlation_adjustment data 1 = some data := by
  unfold apply_correlation_adjustment
  rw [if_pos rfl]

/-- Claim C5, counterexample: a point whose open is present but equal to `0`
is copied through unchanged by the adjuster, so its output close (`102`)
differs from the close the claim's formula `open * (1 + adjusted_change)`
dictates — the claim's "every point with a present open and close" is too
broad. -/
theorem c5_counterexample :
    apply_correlation_adjustment
      [⟨0, 0, some 0, some 103, some 99, some 102, 5⟩] 0.95 =
      some [⟨0, 0, some 0, some 103, some 99, some 102, 5⟩] ∧
    (0 : ℚ) * (1 + (102 - 0) / 0 * 0.95) ≠ 102 := by
  constructor
  · have hc : ((0.95 : ℚ) = 1) = False := by norm_num
    have h1 : adjustPoint 0.95 ⟨0, 0, some 0, some 103, some 99, some 102, 5⟩ =
        some ⟨0, 0, some 0, some 103, some 99, some 102, 5⟩ := by
      simp [adjustPoint]
    simp [apply_correlation_adjustment, hc, adjustList, h1]
  · norm_num

/-- Claim C5 (amended): for every correlation different from 1.0 and every
point with a present and NON-ZERO open and a present close, the Correlation
Adjuster computes `price_change = (close - open) / open`,
`adjusted_change = price_change * correlation`, and outputs
`close' = open * (1 + adjusted_change)`,
`high' = max(open, close') * (1 + 0.5*|adjusted_change|)`,
`low' = min(open, close') * (1 - 0.5*|adjusted_change|)`, leaving volume and
timestamp unmodified; in particular a point `{open:100, close:102}` at
correlation 0.95 gets close 101.9. -/
theorem c5_adjustment_formula :
    (∀ (correlation_factor : ℚ) (data : List DataPoint),
        correlation_factor ≠ 1 →
        apply_correlation_adjustment data correlation_factor =
          adjustList correlation_factor data) ∧
    (∀ (correlation_factor o c : ℚ) (p : DataPoint),
        p.«open» = some o → o ≠ 0 → p.close = some c →
        adjustPoint correlation_factor p =
          some { p with
                 close := some (o * (1 + (c - o) / o * correlation_factor))
                 high := some (max o (o * (1 + (c - o) / o * correlation_factor)) *
                   (1 + |(c - o) / o * correlation_factor| * 0.5))
                 low := some (min o (o * (1 + (c - o) / o * correlation_factor)) *
                   (1 - |(c - o) / o * correlation_factor| * 0.5)) }) ∧
    (adjustPoint 0.95 ⟨0, 0, some 100, some 103, some 99, some 102, 5⟩).map
      DataPoint.close = some (some 101.9) := by
  refine ⟨?_, ?_, ?_⟩
  · intro correlation_factor data h
    unfold apply_correlation_adjustment
    rw [if_neg h]
  · intro correlation_factor o c p ho hoz hc
    simp only [adjustPoint, ho, hc, ne_eq, hoz, not_false_eq_true, if_true]
  · have hne : ((100 : ℚ) ≠ 0) := by norm_num
    simp only [adjustPoint, hne, ne_eq, not_false_eq_true, if_true,
      Option.map_some]
    norm_num

/-- Claim C5, witness: the amended per-point formula applied to the concrete
point `{open:100, close:102}` at correlation 0.95. -/
theorem c5_adjustment_formula_witness :
    (⟨0, 0, some 100, some 103, some 99, some 102, 5⟩ : DataPoint).«open» =
      some 100 ∧ (100 : ℚ) ≠ 0 ∧
    (⟨0, 0, some 100, some 103, some 99, some 102, 5⟩ : DataPoint).close =
      some 102 ∧
    adjustPoint 0.95 ⟨0, 0, some 100, some 103, some 99, some 102, 5⟩ =
      some { (⟨0, 0, some 100, some 103, some 99, some 102, 5⟩ : DataPoint) with
             close := some ((100 : ℚ) * (1 + (102 - 100) / 100 * 0.95))
             high := some (max 100 ((100 : ℚ) * (1 + (102 - 100) / 100 * 0.95)) *
               (1 + |(102 - (100 : ℚ)) / 100 * 0.95| * 0.5))
             low := some (min 100 ((100 : ℚ) * (1 + (102 - 100) / 100 * 0.95)) *
               (1 - |(102 - (100 : ℚ)) / 100 * 0.95| * 0.5)) } :=
  ⟨rfl, by norm_num, rfl,
    c5_adjustment_formula.2.1 0.95 100 102 _ rfl (by norm_num) rfl⟩

/-- Claim C9, counterexample: no flooring at zero is applied to synthetic
volumes — with every volume draw six standard deviations below the mean, the
first point of the standalone demo series has a negative volume. -/
theorem c9_counterexample :
    ∃ p l, generate_standard_demo_data 0 zStream minusSixStream = p :: l ∧
      p.volume < 0 := by
  refine ⟨_, _, rfl, ?_⟩
  norm_num [truncToward0, minusSixStream]

/-- Claim C9 (amended): every volume in a synthetic series is the
int-truncation of a Gaussian draw centred on a fixed magnitude — 500,000
(sigma 100,000) in the standalone random-walk path, and 1,000,000
(sigma 200,000) in the correlated-walk path for every point after the first,
whose volume is the constant 1,000,000 — with NO flooring at zero, so a
sufficiently negative draw produces a negative volume. -/
theorem c9_volume_model :
    (∀ (now : Int) (stepNoise dVolNoise : Nat → ℚ),
        ∀ p ∈ generate_standard_demo_data now stepNoise dVolNoise,
          ∃ j, p.volume = truncToward0 (500000 + 100000 * dVolNoise j)) ∧
    (∀ (base : List DataPoint) (correlation : ℚ) (noise volNoise : Nat → ℚ)
        (out : List DataPoint),
        create_correlated_data base correlation noise volNoise = some out →
        ∀ p ∈ out, p.volume = 1000000 ∨
          ∃ j, 1 ≤ j ∧ p.volume = truncToward0 (1000000 + 200000 * volNoise j)) :=
  ⟨fun _ _ _ => genStdAux_volume,
   fun _ _ _ _ _ h => create_correlated_data_volume h⟩

/-- Claim C9, witness: the volume model applied to the first point of a
concrete standalone demo series. -/
theorem c9_volume_model_witness :
    ∃ p l, generate_standard_demo_data 0 zStream zStream = p :: l ∧
      ∃ j, p.volume = truncToward0 (500000 + 100000 * zStream j) := by
  refine ⟨_, _, rfl, ?_⟩
  exact c9_volume_model.1 0 zStream zStream _ (List.mem_cons_self _ _)

/-- Claim C10, counterexample: the adjuster is not total over all input
points — a point with a present non-zero open but an absent close makes the
subtraction `close - open` raise a `TypeError` (modelled as `none`). -/
theorem c10_counterexample :
    apply_correlation_adjustment
      [⟨0, 0, some 100, some 103, some 99, none, 5⟩] 0.95 = none := by
  have hc : ((0.95 : ℚ) = 1) = False := by norm_num
  have hne : ((100 : ℚ) ≠ 0) := by norm_num
  have h1 : adjustPoint 0.95 ⟨0, 0, some 100, some 103, some 99, none, 5⟩ =
      none := by
    simp [adjustPoint, hne]
  simp [apply_correlation_adjustment, hc, adjustList, h1]

/-- Claim C10 (amended): with correlation different from 1.0, any point whose
open is absent or zero is copied through without price adjustment, so the
division `(close - open) / open` is never evaluated with a missing or zero
denominator; the adjuster is total over all input points WITH A PRESENT
CLOSE — which the Normalizer guarantees for every series it surfaces. -/
theorem c10_open_guard :
    (∀ (correlation_factor : ℚ) (p : DataPoint), p.«open» = none →
        adjustPoint correlation_factor p = some p) ∧
    (∀ (correlation_factor : ℚ) (p : DataPoint), p.«open» = some 0 →
        adjustPoint correlation_factor p = some p) ∧
    (∀ (correlation_factor : ℚ) (p : DataPoint), p.close.isSome →
        (adjustPoint correlation_factor p).isSome) ∧
    (∀ (correlation_factor : ℚ) (data : List DataPoint),
        (∀ p ∈ data, p.close.isSome) →
        (apply_correlation_adjustment data correlation_factor).isSome) := by
  refine ⟨?_, ?_, ?_, ?_⟩
  · intro correlation_factor p h
    simp only [adjustPoint, h]
  · intro correlation_factor p h
    simp only [adjustPoint, h, ne_eq, not_true_eq_false, if_false]
  · intro correlation_factor p h
    rcases ho : p.«open» with _ | o
    · simp only [adjustPoint, ho, Option.isSome_some]
    · by_cases hoz : o = 0
      · simp only [adjustPoint, ho, hoz, ne_eq, not_true_eq_false, if_false,
          Option.isSome_some]
      · rcases hc : p.close with _ | c
        · rw [hc] at h; exact Bool.noConfusion h
        · simp only [adjustPoint, ho, hc, ne_eq, hoz, not_false_eq_true,
            if_true, Option.isSome_some]
  · intro correlation_factor data h
    unfold apply_correlation_adjustment
    split
    · rfl
    · exact adjustList_isSome h

/-- Claim C10, witness: the open-guard applied to a concrete point with an
absent open. -/
theorem c10_open_guard_witness :
    (⟨0, 0, none, some 103, some 99, some 102, 5⟩ : DataPoint).«open» = none ∧
    adjustPoint 0.95 ⟨0, 0, none, some 103, some 99, some 102, 5⟩ =
      some ⟨0, 0, none, some 103, some 99, some 102, 5⟩ :=
  ⟨rfl, c10_open_guard.1 0.95 _ rfl⟩

/-- Claim C6: in the Normalizer, whenever the recency-window filter yields
zero rows but at least one raw row exists, the fallback set is exactly the
last 100 raw rows in source order (all rows if fewer than 100 exist), which
are then close-filtered, rather than returning an empty result. -/
theorem c6_window_widening (rows : List RawRow) (now maxHours : Int)
    (isDaily : Bool) (hne : rows ≠ [])
    (hempty : pmdRecent rows now maxHours isDaily = []) :
    ∃ tail100 pre, rows = pre ++ tail100 ∧
      tail100.length = min 100 rows.length ∧
      process_market_data rows now maxHours isDaily =
        (if ((tail100.map toDataPoint).filter (fun p => p.close.isSome)).isEmpty
         then none
         else some ((tail100.map toDataPoint).filter (fun p => p.close.isSome))) := by
  have hwin : pmdWindow rows now maxHours isDaily =
      rows.drop (rows.length - 100) := by
    unfold pmdWindow
    rw [hempty]
    rfl
  refine ⟨rows.drop (rows.length - 100), rows.take (rows.length - 100),
    (List.take_append_drop _ rows).symm, ?_, ?_⟩
  · rw [List.length_drop]; omega
  · have hre : rows.isEmpty = false := by
      cases rows with
      | nil => exact absurd rfl hne
      | cons a l => rfl
    unfold process_market_data pmdResult
    rw [hwin, hre]
    simp only [Bool.false_eq_true, if_false]

/-- Claim C6, witness: the window-widening law applied to a one-row table
whose only row is stale. -/
theorem c6_window_widening_witness :
    ([⟨0, none, none, none, some 5, none⟩] : List RawRow) ≠ [] ∧
    pmdRecent [⟨0, none, none, none, some 5, none⟩] 1000 1 false = [] ∧
    (∃ tail100 pre,
      ([⟨0, none, none, none, some 5, none⟩] : List RawRow) = pre ++ tail100 ∧
      tail100.length =
        min 100 ([⟨0, none, none, none, some 5, none⟩] : List RawRow).length ∧
      process_market_data [⟨0, none, none, none, some 5, none⟩] 1000 1 false =
        (if ((tail100.map toDataPoint).filter (fun p => p.close.isSome)).isEmpty
         then none
         else some ((tail100.map toDataPoint).filter (fun p => p.close.isSome)))) :=
  ⟨by decide, by decide,
    c6_window_widening _ 1000 1 false (by decide) (by decide)⟩

/-- Claim C1 (code bug): `resolve` is claimed never to raise because the
terminal Synthesize stage must never fail — but when every ladder for the
requested symbol fails while the `^GSPC` reference ladder succeeds with a
series whose first close is `0.0`, `create_correlated_data` divides the
realised return by that zero close and `get_multi_strategy_data` raises an
uncaught `ZeroDivisionError` (modelled as `none`). -/
theorem c1_resolve_raises_on_zero_close_reference :
    get_multi_strategy_data zeroCloseFetch 0 zStream zStream zStream zStream
      "ZZZZ" 24 = none ∧
    (firstBaseData zeroCloseFetch 0).isSome = true := by
  constructor
  · decide
  · decide

/-- Claim C2, counterexample: an empty-after-normalisation result at rung A
is fatal, not a fall-through — with eleven NaN-close rows at rung A the whole
ladder returns failure even though rung B would have succeeded. -/
theorem c2_counterexample :
    try_primary_symbol nanThenGoodFetch "X" 0 24 = none ∧
    (strategyB nanThenGoodFetch "X" 0 24).isSome = true := by
  constructor
  · decide
  · decide

/-- Claim C2 (amended): in the Fetch Ladder, a provider error/timeout and a
raw result that is empty or below the rung's raw-size threshold are
non-fatal and advance the ladder to the next rung, and exhaustion of all
four rungs returns failure; but a raw result that passes a rung's size gate
is terminal — its normalised result (even a failure) is returned
immediately, so an empty-after-normalisation result does NOT advance the
ladder. -/
theorem c2_rung_advancement :
    (∀ (fetch : String → Rung → FetchResult) (s : String) (now mh : Int),
        fetch s Rung.A = .err →
        try_primary_symbol fetch s now mh = strategyB fetch s now mh) ∧
    (∀ (fetch : String → Rung → FetchResult) (s : String) (now mh : Int)
        (d : List RawRow), fetch s Rung.A = .ok d →
        ¬(¬d.isEmpty ∧ 10 < d.length) →
        try_primary_symbol fetch s now mh = strategyB fetch s now mh) ∧
    (∀ (fetch : String → Rung → FetchResult) (s : String) (now mh : Int)
        (d : List RawRow), fetch s Rung.A = .ok d → ¬d.isEmpty →
        10 < d.length →
        try_primary_symbol fetch s now mh = process_market_data d now mh false) ∧
    (∀ (fetch : String → Rung → FetchResult) (s : String) (now mh : Int),
        fetch s Rung.B = .err →
        strategyB fetch s now mh = strategyC fetch s now mh) ∧
    (∀ (fetch : String → Rung → FetchResult) (s : String) (now mh : Int)
        (d : List RawRow), fetch s Rung.B = .ok d →
        ¬(¬d.isEmpty ∧ 5 < d.length) →
        strategyB fetch s now mh = strategyC fetch s now mh) ∧
    (∀ (fetch : String → Rung → FetchResult) (s : String) (now mh : Int),
        fetch s Rung.C = .err →
        strategyC fetch s now mh = strategyD fetch s now mh) ∧
    (∀ (fetch : String → Rung → FetchResult) (s : String) (now mh : Int)
        (d : List RawRow), fetch s Rung.C = .ok d → d.isEmpty →
        strategyC fetch s now mh = strategyD fetch s now mh) ∧
    (∀ (fetch : String → Rung → FetchResult) (s : String) (now mh : Int),
        fetch s Rung.D = .err → strategyD fetch s now mh = none) ∧
    (∀ (fetch : String → Rung → FetchResult) (s : String) (now mh : Int)
        (d : List RawRow), fetch s Rung.D = .ok d → d.isEmpty →
        strategyD fetch s now mh = none) := by
  refine ⟨?_, ?_, ?_, ?_, ?_, ?_, ?_, ?_, ?_⟩
  · intro fetch s now mh h
    simp only [try_primary_symbol, h]
  · intro fetch s now mh d h hcond
    simp only [try_primary_symbol, h]
    rw [if_neg hcond]
  · intro fetch s now mh d h h1 h2
    simp only [try_primary_symbol, h]
    rw [if_pos ⟨h1, h2⟩]
  · intro fetch s now mh h
    simp only [strategyB, h]
  · intro fetch s now mh d h hcond
    simp only [strategyB, h]
    rw [if_neg hcond]
  · intro fetch s now mh h
    simp only [strategyC, h]
  · intro fetch s now mh d h h1
    simp only [strategyC, h]
    rw [if_neg (not_not_intro h1)]
  · intro fetch s now mh h
    simp only [strategyD, h]
  · intro fetch s now mh d h h1
    simp only [strategyD, h]
    rw [if_neg (not_not_intro h1)]

/-- Claim C2, witness: the advancement laws applied to the all-raising
oracle. -/
theorem c2_rung_advancement_witness :
    try_primary_symbol errFetch "X" 0 24 = strategyB errFetch "X" 0 24 ∧
    strategyD errFetch "X" 0 24 = none :=
  ⟨c2_rung_advancement.1 errFetch "X" 0 24 rfl,
   c2_rung_advancement.2.2.2.2.2.2.2.1 errFetch "X" 0 24 rfl⟩

/-- Claim C3, counterexample: the `> 10` acceptance threshold of rung 1 is a
gate on RAW rows, not on normalised points — an eleven-row raw table of
which a single row survives normalisation is accepted at rung 1 with one
normalised point. -/
theorem c3_counterexample :
    try_primary_symbol sparseCloseFetch "X" 0 24 =
      some [⟨0, 0, some 1, some 1, some 1, some 100, 1⟩] ∧
    sparseCloseFetch "X" Rung.B = .err ∧
    sparseCloseFetch "X" Rung.C = .err ∧
    sparseCloseFetch "X" Rung.D = .err := by
  refine ⟨by decide, by decide, by decide, by decide⟩

/-- Claim C3 (amended): the Fetch Ladder tries, in fixed order, exactly four
rungs: (1) 2-day period at 1-minute sampling, taken only when the RAW table
has more than 10 rows; (2) 5-day period at 5-minute sampling, taken with
more than 5 raw rows; (3) 1-month period at 1-hour sampling, taken when the
raw table is non-empty, with the recency window passed to the Normalizer
doubled to `max_hours * 2`; (4) 5-day period at daily sampling with the
`is_daily` flag and window `max_hours * 24`. A taken rung returns its
normalised result as-is, which may hold 10 or fewer points. -/
theorem c3_rung_schedule :
    (∀ (fetch : String → Rung → FetchResult) (s : String) (now mh : Int)
        (d : List RawRow), fetch s Rung.A = .ok d → d ≠ [] → 10 < d.length →
        try_primary_symbol fetch s now mh = process_market_data d now mh false) ∧
    (∀ (fetch : String → Rung → FetchResult) (s : String) (now mh : Int)
        (d : List RawRow), fetch s Rung.A = .err → fetch s Rung.B = .ok d →
        d ≠ [] → 5 < d.length →
        try_primary_symbol fetch s now mh = process_market_data d now mh false) ∧
    (∀ (fetch : String → Rung → FetchResult) (s : String) (now mh : Int)
        (d : List RawRow), fetch s Rung.A = .err → fetch s Rung.B = .err →
        fetch s Rung.C = .ok d → d ≠ [] →
        try_primary_symbol fetch s now mh =
          process_market_data d now (mh * 2) false) ∧
    (∀ (fetch : String → Rung → FetchResult) (s : String) (now mh : Int)
        (d : List RawRow), fetch s Rung.A = .err → fetch s Rung.B = .err →
        fetch s Rung.C = .err → fetch s Rung.D = .ok d → d ≠ [] →
        try_primary_symbol fetch s now mh =
          process_market_data d now (mh * 24) true) := by
  refine ⟨?_, ?_, ?_, ?_⟩
  · intro fetch s now mh d h hne h10
    simp only [try_primary_symbol, h]
    rw [if_pos ⟨not_isEmpty_of_ne_nil hne, h10⟩]
  · intro fetch s now mh d hA hB hne h5
    simp only [try_primary_symbol, hA, strategyB, hB]
    rw [if_pos ⟨not_isEmpty_of_ne_nil hne, h5⟩]
  · intro fetch s now mh d hA hB hC hne
    simp only [try_primary_symbol, hA, strategyB, hB, strategyC, hC]
    rw [if_pos (not_isEmpty_of_ne_nil hne)]
  · intro fetch s now mh d hA hB hC hD hne
    simp only [try_primary_symbol, hA, strategyB, hB, strategyC, hC,
      strategyD, hD]
    rw [if_pos (not_isEmpty_of_ne_nil hne)]

/-- Claim C3, witness: rung 1's schedule applied to a concrete oracle whose
raw table has eleven rows. -/
theorem c3_rung_schedule_witness :
    goodRungAFetch "X" Rung.A = .ok elevenGoodRows ∧
    elevenGoodRows ≠ [] ∧ 10 < elevenGoodRows.length ∧
    try_primary_symbol goodRungAFetch "X" 0 24 =
      process_market_data elevenGoodRows 0 24 false :=
  ⟨rfl, by decide, by decide,
   c3_rung_schedule.1 goodRungAFetch "X" 0 24 elevenGoodRows rfl (by decide)
     (by decide)⟩

/-- Claim C7: for every series returned by `get_multi_strategy_data`,
whatever its source (primary, alternative, proxy, or demo), every point in
the series has a present (non-null) close; points whose close is absent are
never surfaced. -/
theorem c7_close_always_present
    (fetch : String → Rung → FetchResult) (now : Int)
    (noise volNoise stepNoise dVolNoise : Nat → ℚ) (symbol : String)
    (maxHours : Int) (data : List DataPoint) (st : Status)
    (h : get_multi_strategy_data fetch now noise volNoise stepNoise dVolNoise
      symbol maxHours = some (data, st)) :
    ∀ p ∈ data, p.close.isSome := by
  rcases h1 : try_primary_symbol fetch symbol now maxHours with _ | d
  · simp only [get_multi_strategy_data, h1] at h
    split at h
    · rename_i r heq
      obtain ⟨d2, st2⟩ := r
      injection h with h2
      injection h2 with hd hst
      subst hd
      exact tryAltList_inl_closes heq
    · rename_i st2 heq2
      split at h
      · exact Option.noConfusion h
      · rename_i r heq3
        obtain ⟨d2, st3⟩ := r
        injection h with h2
        injection h2 with hd hst
        subst hd
        exact tryProxyList_inl_closes heq3
      · rename_i st3 heq3
        split at h
        · exact Option.noConfusion h
        · rename_i demo heq4
          injection h with h2
          injection h2 with hd hst
          subst hd
          exact generate_correlated_demo_data_closes heq4
  · simp only [get_multi_strategy_data, h1] at h
    injection h with h2
    injection h2 with hd hst
    subst hd
    exact try_primary_symbol_closes h1

/-- Claim C7, witness: the close-presence invariant on the concrete
resolution of `ZZZZ` against the all-raising oracle. -/
theorem c7_close_always_present_witness :
    ∃ pr, get_multi_strategy_data errFetch 0 zStream zStream zStream zStream
      "ZZZZ" 24 = some pr ∧ ∀ p ∈ pr.1, p.close.isSome :=
  ⟨_, rfl, c7_close_always_present errFetch 0 zStream zStream zStream zStream
    "ZZZZ" 24 _ _ rfl⟩

/-- Claim C8: whenever the ladder fails for the requested symbol, all its
alternatives and all its proxies, any result `get_multi_strategy_data`
returns is tagged with the synthetic source kind `correlated_demo` (never a
primary/alternative/proxy tag) and carries a non-empty warnings list
containing the no-real-data warning. -/
theorem c8_synthetic_tagged
    (fetch : String → Rung → FetchResult) (now : Int)
    (noise volNoise stepNoise dVolNoise : Nat → ℚ) (symbol : String)
    (maxHours : Int)
    (hp : try_primary_symbol fetch symbol now maxHours = none)
    (ha : ∀ a ∈ (lookupSymbolInfo symbol).alternatives.drop 1,
        try_primary_symbol fetch a now maxHours = none)
    (hx : ∀ a ∈ (lookupSymbolInfo symbol).proxy_symbols,
        try_primary_symbol fetch a now maxHours = none)
    (data : List DataPoint) (st : Status)
    (h : get_multi_strategy_data fetch now noise volNoise stepNoise dVolNoise
      symbol maxHours = some (data, st)) :
    st.data_source = some "correlated_demo" ∧
    ("No real data available for " ++ symbol ++ ", using correlated demo data")
      ∈ st.warnings ∧ st.warnings ≠ [] := by
  simp only [get_multi_strategy_data, hp] at h
  split at h
  · rename_i r heq
    exact absurd heq (tryAltList_ne_inl ha _ r)
  · rename_i st2 heq2
    split at h
    · rename_i heq3
      exact absurd heq3 (tryProxyList_ne_none hx _)
    · rename_i r heq3
      exact absurd heq3 (tryProxyList_ne_inl hx _ r)
    · rename_i st3 heq3
      split at h
      · exact Option.noConfusion h
      · rename_i demo heq4
        injection h with h2
        injection h2 with hd hst
        subst hst
        refine ⟨rfl, ?_, ?_⟩
        · exact List.mem_append_right _ (List.mem_singleton.mpr rfl)
        · simp

/-- Claim C8, witness: the synthetic tagging on the concrete resolution of
`ZZZZ` against the all-raising oracle. -/
theorem c8_synthetic_tagged_witness :
    ∃ pr, get_multi_strategy_data errFetch 0 zStream zStream zStream zStream
      "ZZZZ" 24 = some pr ∧ pr.2.data_source = some "correlated_demo" ∧
      pr.2.warnings ≠ [] := by
  refine ⟨_, rfl, ?_, ?_⟩
  · exact (c8_synthetic_tagged errFetch 0 zStream zStream zStream zStream
      "ZZZZ" 24 rfl (by decide) (by decide) _ _ rfl).1
  · exact (c8_synthetic_tagged errFetch 0 zStream zStream zStream zStream
      "ZZZZ" 24 rfl (by decide) (by decide) _ _ rfl).2.2
